import Mathlib

/-!
Verification development for the Rhyolite API data/validation/query engine
(`src/datamodel.py`, `src/server.py`).

The persistent store is embedded shallowly: a `DB` record of row lists stands
for the five relations plus the external byte store, and every endpoint of
`server.py` becomes a pure function `DB → … → Except HErr …`.  An `.error`
outcome corresponds to an aborted (rolled-back) transaction, so it leaves the
state unchanged by construction.  Timestamps are natural numbers; each
operation receives the instant `now` at which it runs, standing for the
`utcnow` column defaults evaluated during that operation.  UUIDs are natural
numbers; freshness of a generated id is an explicit hypothesis standing for
uuid4 collision-freedom (a collision would surface as an uncaught
IntegrityError, modelled as a 500 error).

JSON arrays and objects are encoded as right-nested cons chains inside a
single inductive (instead of nested `List` fields) so that every function on
JSON values is plain structural recursion and evaluates inside the kernel.
JSON numbers are modelled as integers; query-side numeric casts do handle
decimal text.
-/

/-- JSON values (payloads, query values).  `arrCons h t` is the array with
head `h` and tail chain `t` (ending in `arrNil`); `objCons k v t` likewise
for object fields, which keep insertion order as JSONB text rendering does
in this model. -/
inductive Json where
  | null : Json
  | bool (b : Bool) : Json
  | num (n : Int) : Json
  | str (s : String) : Json
  | arrNil : Json
  | arrCons (head tail : Json) : Json
  | objNil : Json
  | objCons (key : String) (value tail : Json) : Json
deriving DecidableEq, Repr

/-- Build an array value from a list. -/
def Json.arrOf : List Json → Json
  | [] => .arrNil
  | x :: xs => .arrCons x (Json.arrOf xs)

/-- Build an object value from a field list. -/
def Json.objOf : List (String × Json) → Json
  | [] => .objNil
  | (k, v) :: xs => .objCons k v (Json.objOf xs)

/-- Whether a value is a JSON object. -/
def Json.isObj : Json → Bool
  | .objNil => true
  | .objCons _ _ _ => true
  | _ => false

/-- First value bound to `key` in an object chain (`none` on non-objects). -/
def jlookup : Json → String → Option Json
  | .objCons k v rest, key => if k = key then some v else jlookup rest key
  | _, _ => none

/-- Length of an array chain. -/
def arrLen : Json → Nat
  | .arrCons _ t => arrLen t + 1
  | _ => 0

/-- Element of an array chain at a non-negative index. -/
def arrGet : Json → Nat → Option Json
  | .arrCons h _, 0 => some h
  | .arrCons _ t, n + 1 => arrGet t n
  | _, _ => none

/-- Minimal JSON string escaping (quote and backslash). -/
def jescape (s : String) : String :=
  String.join (s.toList.map fun c =>
    if c = '"' then "\\\"" else if c = '\\' then "\\\\" else String.singleton c)

/-- JSON text of a value in the `", "`/`": "` style Postgres uses when it
renders `jsonb` to text (and Python `json.dumps` uses by default).  The
first component is the full text; the second is the rendering of the value
viewed as the remainder of an enclosing array/object chain. -/
def jrender2 : Json → String × String
  | .null => ("null", "null")
  | .bool true => ("true", "true")
  | .bool false => ("false", "false")
  | .num n => (toString n, toString n)
  | .str s => ("\"" ++ jescape s ++ "\"", "\"" ++ jescape s ++ "\"")
  | .arrNil => ("[]", "]")
  | .arrCons h t => ("[" ++ (jrender2 h).1 ++ (jrender2 t).2,
      ", " ++ (jrender2 h).1 ++ (jrender2 t).2)
  | .objNil => ("\x7b\x7d", "\x7d")
  | .objCons k v t =>
      ("\x7b" ++ "\"" ++ jescape k ++ "\": " ++ (jrender2 v).1 ++ (jrender2 t).2,
       ", " ++ "\"" ++ jescape k ++ "\": " ++ (jrender2 v).1 ++ (jrender2 t).2)

/-- JSON text of a value. -/
def jsonRender (j : Json) : String := (jrender2 j).1

/-- Text form of a value at a path: strings are unquoted, other values are
their JSON text. -/
def renderText : Json → String
  | .str s => s
  | v => jsonRender v

/-- A path element of `jsonb_extract_path_text` indexes an array when it is
integer text (optionally negative, counting from the end). -/
def parsePathIndex (s : String) : Option Int :=
  match s.toList with
  | [] => none
  | '-' :: ds =>
      if ds ≠ [] ∧ ds.all Char.isDigit then
        some (-(ds.foldl (fun a c => a * 10 + (c.toNat - 48)) 0 : Nat))
      else none
  | ds =>
      if ds.all Char.isDigit then
        some ((ds.foldl (fun a c => a * 10 + (c.toNat - 48)) 0 : Nat) : Int)
      else none

/-- One step of the path walk of the Postgres builtin `jsonb_extract_path`:
an object field by name, or an array element by integer-text index. -/
def jstep : Json → String → Option Json
  | .objCons k v rest, p => if k = p then some v else jstep rest p
  | .arrCons h t, p =>
      match parsePathIndex p with
      | some i =>
          let i' : Int := if i < 0 then (arrLen (.arrCons h t) : Int) + i else i
          if 0 ≤ i' then arrGet (.arrCons h t) i'.toNat else none
      | none => none
  | _, _ => none

/-- Value reached from `j` by the path (Postgres `jsonb_extract_path`). -/
def extractPath : Json → List String → Option Json
  | j, [] => some j
  | j, p :: ps =>
      match jstep j p with
      | some v => extractPath v ps
      | none => none

/-- `jsonb_extract_path_text(payload, *path)`: SQL NULL (`none`) when the
path is absent or the value there is JSON null. -/
def extractPathText (j : Json) (path : List String) : Option String :=
  match extractPath j path with
  | some .null => none
  | some v => some (renderText v)
  | none => none

/-- ASCII lowercasing of one character (models `lower` as used by ILIKE). -/
def lcChar (c : Char) : Char :=
  if 65 ≤ c.toNat ∧ c.toNat ≤ 90 then Char.ofNat (c.toNat + 32) else c

/-- ASCII lowercasing of a character list. -/
def lcList (l : List Char) : List Char := l.map lcChar

/-- SQL LIKE matching over character lists: `%` matches any sequence,
`_` any single character, all other characters literally. -/
def likeMatch : List Char → List Char → Bool
  | [], s => s.isEmpty
  | p :: ps, s =>
      if p = '%' then s.tails.any fun t => likeMatch ps t
      else
        match s with
        | [] => false
        | c :: s' => (p = '_' || p = c) && likeMatch ps s'

/-- Postgres `ILIKE`: case-insensitive LIKE (both sides lowercased). -/
def sqlIlike (pattern s : String) : Bool :=
  likeMatch (lcList pattern.toList) (lcList s.toList)

/-- Strip leading and trailing whitespace from a character list. -/
def trimChars (l : List Char) : List Char :=
  ((l.dropWhile Char.isWhitespace).reverse.dropWhile Char.isWhitespace).reverse

/-- Numeric value of an all-digit chunk, `none` otherwise or when empty. -/
def parseDigits : List Char → Option Nat
  | [] => none
  | ds =>
      if ds.all Char.isDigit then
        some (ds.foldl (fun a c => a * 10 + (c.toNat - 48)) 0)
      else none

/-- A decimal number `mant / 10 ^ scale`, kept unnormalized.  Stands for the
Postgres `numeric` type as far as equality with integer query values needs. -/
structure Decimal where
  mant : Int
  scale : Nat
deriving DecidableEq, Repr

/-- Equality of a decimal with an integer (SQL `numeric` equality). -/
def Decimal.eqInt (d : Decimal) (v : Int) : Bool := d.mant = v * (10 : Int) ^ d.scale

/-- Postgres cast of text to `numeric` (subset: optional sign, digits with an
optional fractional part, surrounding whitespace; no exponent form).
Partial: invalid text raises a database error, modelled by `none`. -/
def castNumeric (s : String) : Option Decimal :=
  let t := trimChars s.toList
  let sign : Int := match t with | '-' :: _ => -1 | _ => 1
  let body := match t with | '-' :: rest => rest | '+' :: rest => rest | rest => rest
  match body.span (· ≠ '.') with
  | (ip, []) => (parseDigits ip).map fun n => ⟨sign * (n : Int), 0⟩
  | (ip, _ :: fp) =>
      if fp.contains '.' then none
      else if ip.isEmpty ∧ fp.isEmpty then none
      else if ip.all Char.isDigit ∧ fp.all Char.isDigit then
        some ⟨sign * (((ip.foldl (fun a c => a * 10 + (c.toNat - 48)) 0) * 10 ^ fp.length
          + fp.foldl (fun a c => a * 10 + (c.toNat - 48)) 0 : Nat) : Int), fp.length⟩
      else none

/-- Postgres cast of text to `boolean` (accepted spellings: non-empty unique
prefixes of true/false/yes/no, on/off/of, 1/0; case-insensitive, trimmed).
Partial: anything else raises a database error, modelled by `none`. -/
def castBool (s : String) : Option Bool :=
  let t := lcList (trimChars s.toList)
  if t ≠ [] ∧ (t.isPrefixOf "true".toList ∨ t.isPrefixOf "yes".toList ∨
      t = "on".toList ∨ t = "1".toList) then
    some true
  else if t ≠ [] ∧ (t.isPrefixOf "false".toList ∨ t.isPrefixOf "no".toList ∨
      t = "off".toList ∨ t = "of".toList ∨ t = "0".toList) then
    some false
  else none

/-! ## Schema validation

`server.py` delegates payload validation to the external `jsonschema`
library (`jsonschema.Draft202012Validator`).  Modelled from the spec: the
external JSON-Schema-Draft-2020-12 conformant validation capability
(`validate(schema, payload) -> list of (message, payload_path, schema_path)`),
restricted to the keywords `type`, `required` and `properties`, with
Draft 2020-12 semantics (`required`/`properties` only constrain objects;
every keyword present must hold).  `validate_payload` itself is translated
from `_validate_payload` in `src/server.py`: it renders each error to a
string, sorts by that rendering, and returns the structured error list. -/

/-- The seven values of the JSON Schema `type` keyword. -/
inductive JType where
  | object | array | string | number | integer | boolean | jnull
deriving DecidableEq, Repr

/-- Whether a JSON value has a `type` keyword's type.  (JSON numbers are
modelled as integers, so `number` and `integer` coincide here.) -/
def typeMatches : JType → Json → Bool
  | .object, .objNil => true
  | .object, .objCons _ _ _ => true
  | .array, .arrNil => true
  | .array, .arrCons _ _ => true
  | .string, .str _ => true
  | .number, .num _ => true
  | .integer, .num _ => true
  | .boolean, .bool _ => true
  | .jnull, .null => true
  | _, _ => false

/-- A JSON Schema document over the modelled subset.  `schema t? req props`
is the document with optional `type`, a `required` key list, and a
`properties` chain; `propsCons k sub rest` is one `properties` entry. -/
inductive JSchema where
  | schema (type? : Option JType) (required : List String) (properties : JSchema) : JSchema
  | propsNil : JSchema
  | propsCons (key : String) (sub rest : JSchema) : JSchema
deriving DecidableEq, Repr

/-- Build a `properties` chain from a list. -/
def JSchema.propsOf : List (String × JSchema) → JSchema
  | [] => .propsNil
  | (k, s) :: rest => .propsCons k s (JSchema.propsOf rest)

/-- Draft 2020-12 satisfaction over the modelled subset: the instance matches
the `type` if present; if it is an object, every `required` key is present
and every present `properties` key's value satisfies its subschema. -/
def satisfies : JSchema → Json → Bool
  | .schema t? req props, j =>
      (match t? with
       | some t => typeMatches t j
       | none => true) &&
      (if j.isObj then
        req.all (fun k => (jlookup j k).isSome) && satisfies props j
       else true)
  | .propsNil, _ => true
  | .propsCons k sub rest, j =>
      (match jlookup j k with
       | some v => satisfies sub v
       | none => true) && satisfies rest j

/-- One structured validation error: human message, path into the payload,
path into the schema (the `message`/`path`/`schema_path` dict built by
`_validate_payload`). -/
structure VError where
  message : String
  path : List String
  schema_path : List String
deriving DecidableEq, Repr

/-- The string rendering of a validation error used as the sort key
(`str(err)` in `_validate_payload`). -/
def VError.render (e : VError) : String :=
  e.message ++ " @ " ++ e.path.foldl (fun a s => a ++ "/" ++ s) ""
    ++ " @ " ++ e.schema_path.foldl (fun a s => a ++ "/" ++ s) ""

/-- The errors the validator's `iter_errors` reports, in schema order.
Empty exactly when the instance satisfies the schema. -/
def iterErrors : JSchema → Json → List VError
  | .schema t? req props, j =>
      (match t? with
       | some t =>
          if typeMatches t j then []
          else [⟨jsonRender j ++ " is not of the expected type", [], ["type"]⟩]
       | none => []) ++
      (if j.isObj then
        req.filterMap (fun k =>
          if (jlookup j k).isSome then none
          else some ⟨k ++ " is a required property", [], ["required"]⟩) ++
        iterErrors props j
       else [])
  | .propsNil, _ => []
  | .propsCons k sub rest, j =>
      (match jlookup j k with
       | some v => (iterErrors sub v).map (fun e =>
          ⟨e.message, k :: e.path, "properties" :: k :: e.schema_path⟩)
       | none => []) ++ iterErrors rest j

/-- `_validate_payload` (src/server.py): collect the validator's errors,
sorted by their string rendering. -/
def validate_payload (schema : JSchema) (payload : Json) : List VError :=
  (iterErrors schema payload).insertionSort (fun a b => a.render ≤ b.render)

/-! ## Data model and store state

Rows mirror the SQLAlchemy models of `src/datamodel.py`; `DB` is the store
state (five relations plus the external byte store's key set).  Primary-key
uniqueness (node/attachment ids, edge and edges-kind composite keys, kind
names) is enforced by the storage layer; where a theorem needs it, it is an
explicit hypothesis. -/

/-- `kinds` row: name (primary key) and the kind's JSON Schema. -/
structure KindRow where
  name : String
  schema : JSchema
deriving DecidableEq, Repr

/-- `nodes` row.  `created_at`/`updated_at` carry the `utcnow` defaults
evaluated at insert time; the column has no on-update default. -/
structure NodeRow where
  id : Nat
  kind : String
  payload : Json
  created_at : Nat
  updated_at : Nat
deriving DecidableEq, Repr

/-- `edges_kinds` row (composite primary key). -/
structure EdgesKindRow where
  from_kind : String
  to_kind : String
  relation : String
deriving DecidableEq, Repr

/-- `edges` row (composite primary key `(from_id, to_id, relation)`). -/
structure EdgeRow where
  from_id : Nat
  to_id : Nat
  relation : String
  created_at : Nat
deriving DecidableEq, Repr

/-- `attachments` row; `file_path` is the content-location key in the
external byte store. -/
structure AttachmentRow where
  id : Nat
  node_id : Nat
  mime_type : String
  name : String
  file_path : String
  created_at : Nat
deriving DecidableEq, Repr

/-- Store state: the five relations plus the set of keys at which the
external byte store currently holds bytes. -/
structure DB where
  kinds : List KindRow
  edgesKinds : List EdgesKindRow
  nodes : List NodeRow
  edges : List EdgeRow
  attachments : List AttachmentRow
  files : List String
deriving DecidableEq, Repr

/-- Error detail: either a plain message or the structured payload-validation
detail `{"message": …, "errors": […]}`. -/
inductive ErrDetail where
  | msg (s : String) : ErrDetail
  | validation (message : String) (errors : List VError) : ErrDetail
deriving DecidableEq, Repr

/-- An HTTPException as raised by `server.py`: status code plus detail.
404 = NotFound, 409 = Conflict, 400 = InvalidOperation/ValidationFailed,
500 = an uncaught database error. -/
structure HErr where
  status : Nat
  detail : ErrDetail
deriving DecidableEq, Repr

/-- Decidable equality of operation outcomes (used to evaluate the model on
concrete inputs). -/
instance {e a : Type} [DecidableEq e] [DecidableEq a] : DecidableEq (Except e a) :=
  fun x y =>
    match x, y with
    | .ok v, .ok w =>
        if h : v = w then isTrue (by rw [h]) else isFalse (by simp [h])
    | .error v, .error w =>
        if h : v = w then isTrue (by rw [h]) else isFalse (by simp [h])
    | .ok _, .error _ => isFalse (fun hc => Except.noConfusion hc)
    | .error _, .ok _ => isFalse (fun hc => Except.noConfusion hc)

/-- 404 NotFound. -/
def notFound (m : String) : HErr := ⟨404, .msg m⟩

/-- 409 Conflict. -/
def conflict (m : String) : HErr := ⟨409, .msg m⟩

/-- 400 InvalidOperation. -/
def invalidOp (m : String) : HErr := ⟨400, .msg m⟩

/-- 400 ValidationFailed with the structured error list. -/
def validationFailed (errs : List VError) : HErr :=
  ⟨400, .validation "Payload does not match schema" errs⟩

/-- An exception the endpoint does not catch (e.g. an IntegrityError outside
a try block, or a DataError from a failed cast inside search): surfaces as
an HTTP 500. -/
def serverError (m : String) : HErr := ⟨500, .msg m⟩

/-- `db.get(Kind, name)`. -/
def getKind? (db : DB) (name : String) : Option KindRow :=
  db.kinds.find? (fun k => k.name = name)

/-- `db.get(Node, id)`. -/
def getNode? (db : DB) (id : Nat) : Option NodeRow :=
  db.nodes.find? (fun n => n.id = id)

/-- `db.get(EdgesKind, {from_kind, to_kind, relation})`. -/
def getEdgesKind? (db : DB) (fk tk rel : String) : Option EdgesKindRow :=
  db.edgesKinds.find? (fun ek => ek.from_kind = fk ∧ ek.to_kind = tk ∧ ek.relation = rel)

/-- `db.get(Edge, {from_id, to_id, relation})`. -/
def getEdge? (db : DB) (f t : Nat) (rel : String) : Option EdgeRow :=
  db.edges.find? (fun e => e.from_id = f ∧ e.to_id = t ∧ e.relation = rel)

/-- `db.get(Attachment, id)`. -/
def getAttachment? (db : DB) (id : Nat) : Option AttachmentRow :=
  db.attachments.find? (fun a => a.id = id)

/-! ## Endpoints (src/server.py) -/

/-- `GET /node/{id}` (`get_node`). -/
def get_node (db : DB) (id : Nat) : Except HErr NodeRow :=
  match getNode? db id with
  | some n => .ok n
  | none => .error (notFound "Node not found")

/-- `GET /kind/{name}` (`get_kind`). -/
def get_kind (db : DB) (name : String) : Except HErr KindRow :=
  match getKind? db name with
  | some k => .ok k
  | none => .error (notFound "Kind not found")

/-- The Edge lookup shared by `GET`-by-key uses of `db.get(Edge, …)`
(`delete_edge` does exactly this before deleting). -/
def get_edge (db : DB) (f t : Nat) (rel : String) : Except HErr EdgeRow :=
  match getEdge? db f t rel with
  | some e => .ok e
  | none => .error (notFound "Edge not found")

/-- `GET /attachment/{id}` (`get_attachment`): 404 when the metadata row is
absent, 404 "file missing" when the byte store has no bytes at its key. -/
def get_attachment (db : DB) (id : Nat) : Except HErr AttachmentRow :=
  match getAttachment? db id with
  | none => .error (notFound "Attachment not found")
  | some att =>
      if db.files.contains att.file_path then .ok att
      else .error (notFound "Attachment file missing")

/-- Request body of `POST /node`. -/
structure NodeCreate where
  kind : String
  payload : Json
deriving DecidableEq, Repr

/-- `POST /node` (`create_node`).  `newId` stands for the generated `uuid4`
and `now` for the instant at which the insert's `utcnow` column defaults
are evaluated.  A primary-key collision (impossible for a fresh uuid4)
would be an uncaught IntegrityError, hence 500. -/
def create_node (db : DB) (body : NodeCreate) (newId now : Nat) :
    Except HErr (DB × NodeRow) :=
  match getKind? db body.kind with
  | none => .error (invalidOp "Unknown kind")
  | some kind =>
      match validate_payload kind.schema body.payload with
      | errs@(_ :: _) => .error (validationFailed errs)
      | [] =>
          if db.nodes.any (fun n => n.id = newId) then
            .error (serverError "IntegrityError")
          else
            let node : NodeRow :=
              { id := newId, kind := body.kind, payload := body.payload,
                created_at := now, updated_at := now }
            .ok ({ db with nodes := db.nodes ++ [node] }, node)

/-- Request body of `PUT /node/{id}`. -/
structure NodeUpdate where
  payload : Json
deriving DecidableEq, Repr

/-- `PUT /node/{id}` (`update_node`).  Validates against the node's kind's
current schema, then assigns only `payload`; `Node.updated_at` has no
on-update default in `src/datamodel.py`, so no timestamp column is touched
by the UPDATE — which is why the operation does not use the instant at
which it runs. -/
def update_node (db : DB) (id : Nat) (body : NodeUpdate) :
    Except HErr (DB × NodeRow) :=
  match getNode? db id with
  | none => .error (notFound "Node not found")
  | some node =>
      match getKind? db node.kind with
      | none => .error (notFound "Kind not found")
      | some kind =>
          match validate_payload kind.schema body.payload with
          | errs@(_ :: _) => .error (validationFailed errs)
          | [] =>
              let node' := { node with payload := body.payload }
              .ok ({ db with nodes := db.nodes.map (fun n => if n.id = id then { n with payload := body.payload } else n) },
                node')

/-- `DELETE /node/{id}` (`delete_node`): best-effort unlink of each owned
attachment's bytes, then the row delete whose storage-level cascade removes
the node's attachments and all edges at either endpoint. -/
def delete_node (db : DB) (id : Nat) : Except HErr DB :=
  match getNode? db id with
  | none => .error (notFound "Node not found")
  | some _ =>
      let owned := db.attachments.filter (fun a => a.node_id = id)
      .ok { db with
        files := db.files.filter (fun p => ¬ owned.any (fun a => a.file_path = p)),
        attachments := db.attachments.filter (fun a => ¬ a.node_id = id),
        edges := db.edges.filter (fun e => ¬ e.from_id = id ∧ ¬ e.to_id = id),
        nodes := db.nodes.filter (fun n => ¬ n.id = id) }

/-- `DELETE /kind/{name}` (`delete_kind`): 404 when absent, 400 while any
node has the kind (count check), else the row delete.  The storage layer's
`ON DELETE CASCADE` foreign keys on `edges_kinds.from_kind`/`to_kind`
(src/datamodel.py:80-90) remove every edges-kind row referencing the
deleted kind at either position. -/
def delete_kind (db : DB) (name : String) : Except HErr DB :=
  match getKind? db name with
  | none => .error (notFound "Kind not found")
  | some _ =>
      let node_count := (db.nodes.filter (fun n => n.kind = name)).length
      if node_count > 0 then
        .error (invalidOp "Cannot delete kind with existing nodes")
      else
        .ok { db with
          kinds := db.kinds.filter (fun k => ¬ k.name = name),
          edgesKinds := db.edgesKinds.filter (fun ek =>
            ¬ ek.from_kind = name ∧ ¬ ek.to_kind = name) }

/-- Request body of `POST /edge`. -/
structure EdgeCreate where
  from_id : Nat
  to_id : Nat
  relation : String
deriving DecidableEq, Repr

/-- `POST /edge` (`create_edge`): endpoint nodes must exist, the
`(from_kind, to_kind, relation)` edges-kind must be registered, and the
composite key must be new (the unique constraint's IntegrityError is
translated to 409). -/
def create_edge (db : DB) (body : EdgeCreate) (now : Nat) :
    Except HErr (DB × EdgeRow) :=
  match getNode? db body.from_id with
  | none => .error (invalidOp "from_id node not found")
  | some from_node =>
      match getNode? db body.to_id with
      | none => .error (invalidOp "to_id node not found")
      | some to_node =>
          match getEdgesKind? db from_node.kind to_node.kind body.relation with
          | none => .error (invalidOp "Edge relationship not allowed by edges-kinds")
          | some _ =>
              if db.edges.any (fun e => e.from_id = body.from_id ∧ e.to_id = body.to_id ∧
                  e.relation = body.relation) then
                .error (conflict "Edge already exists")
              else
                let edge : EdgeRow :=
                  { from_id := body.from_id, to_id := body.to_id,
                    relation := body.relation, created_at := now }
                .ok ({ db with edges := db.edges ++ [edge] }, edge)

/-- `DELETE /edge/{from_id}/{to_id}/{relation}` (`delete_edge`). -/
def delete_edge (db : DB) (f t : Nat) (rel : String) : Except HErr DB :=
  match getEdge? db f t rel with
  | none => .error (notFound "Edge not found")
  | some _ =>
      .ok { db with edges := db.edges.filter (fun e =>
        ¬ (e.from_id = f ∧ e.to_id = t ∧ e.relation = rel)) }

/-- `GET /outgoing-edges/{node_id}` (`outgoing_edges`). -/
def outgoing_edges (db : DB) (node_id : Nat) : Except HErr (List EdgeRow) :=
  match getNode? db node_id with
  | none => .error (notFound "Node not found")
  | some _ => .ok (db.edges.filter (fun e => e.from_id = node_id))

/-- `GET /incoming-edges/{node_id}` (`incoming_edges`). -/
def incoming_edges (db : DB) (node_id : Nat) : Except HErr (List EdgeRow) :=
  match getNode? db node_id with
  | none => .error (notFound "Node not found")
  | some _ => .ok (db.edges.filter (fun e => e.to_id = node_id))

/-- `GET /edges/{from_id}/{to_id}` (`edges_between`): no existence check on
either id. -/
def edges_between (db : DB) (f t : Nat) : Except HErr (List EdgeRow) :=
  .ok (db.edges.filter (fun e => e.from_id = f ∧ e.to_id = t))

/-! ## Search (`POST /nodes/search`, `search_nodes`)

The endpoint compiles the request into a conjunction of SQL clauses and lets
Postgres evaluate them per row.  The embedding compiles to a `Clause` list
and evaluates clause by clause per row; a failed `cast(… as Boolean/Numeric)`
is a database `DataError`, which the endpoint does not catch, so it aborts
the whole search (500). -/

/-- Request body of `POST /nodes/search` (`SearchDatamodel`): optional kind
filter, dot-notation predicate map (in insertion order), optional limit. -/
structure SearchBody where
  kinds : Option (List String)
  query : List (String × Json)
  limit : Option Nat
deriving DecidableEq, Repr

/-- A compiled WHERE clause. -/
inductive Clause where
  | kindIn (kinds : List String) : Clause
  | ilikeText (path : List String) (pattern : String) : Clause
  | eqText (path : List String) (v : String) : Clause
  | eqBool (path : List String) (v : Bool) : Clause
  | eqNum (path : List String) (v : Int) : Clause
  | isNull (path : List String) : Clause
  | eqJson (path : List String) (v : String) : Clause
deriving DecidableEq, Repr

/-- Split a dot-notation key on `'.'` (`key.split(".")`; never empty). -/
def splitOnChar (sep : Char) : List Char → List (List Char)
  | [] => [[]]
  | c :: rest =>
      let r := splitOnChar sep rest
      if c = sep then [] :: r
      else
        match r with
        | h :: t => (c :: h) :: t
        | [] => [[c]]

/-- The path of a dot-notation key. -/
def splitPath (key : String) : List String :=
  (splitOnChar '.' key.toList).map List.asString

/-- `val.replace("*", "%")` for a one-character pattern. -/
def starToPercent (s : String) : String :=
  List.asString (s.toList.map fun c => if c = '*' then '%' else c)

/-- Compile one query entry `(key, val)` exactly as the per-item branch of
`search_nodes` does: strings with `*` become ILIKE patterns, plain strings
text equality, booleans/numbers casts plus equality, `null` an IS NULL
test, and arrays/objects a comparison with their `json.dumps` text. -/
def compileEntry (key : String) (val : Json) : Clause :=
  let path := splitPath key
  match val with
  | .str s => if s.toList.contains '*' then .ilikeText path (starToPercent s) else .eqText path s
  | .bool b => .eqBool path b
  | .num n => .eqNum path n
  | .null => .isNull path
  | v => .eqJson path (jsonRender v)

/-- Compile a search request: the kinds filter (when a non-empty list was
given) followed by one clause per query entry. -/
def compileSearch (body : SearchBody) : List Clause :=
  (match body.kinds with
   | some ks => if ks.isEmpty then [] else [Clause.kindIn ks]
   | none => []) ++
  body.query.map (fun kv => compileEntry kv.1 kv.2)

/-- Evaluate one clause on one row.  SQL NULL propagation: when the text at
the path is NULL every comparison is non-true, so the row is filtered out;
only `IS NULL` matches it.  Casting non-NULL text fails the query when the
text does not parse. -/
def evalClause (c : Clause) (n : NodeRow) : Except HErr Bool :=
  match c with
  | .kindIn ks => .ok (ks.contains n.kind)
  | .ilikeText path pat =>
      .ok (match extractPathText n.payload path with
           | some t => sqlIlike pat t
           | none => false)
  | .eqText path v =>
      .ok (match extractPathText n.payload path with
           | some t => t = v
           | none => false)
  | .eqBool path v =>
      match extractPathText n.payload path with
      | none => .ok false
      | some t =>
          match castBool t with
          | some b => .ok (b = v)
          | none => .error (serverError "DataError: invalid input syntax for type boolean")
  | .eqNum path v =>
      match extractPathText n.payload path with
      | none => .ok false
      | some t =>
          match castNumeric t with
          | some d => .ok (d.eqInt v)
          | none => .error (serverError "DataError: invalid input syntax for type numeric")
  | .isNull path => .ok (extractPathText n.payload path).isNone
  | .eqJson path v =>
      .ok (match extractPathText n.payload path with
           | some t => t = v
           | none => false)

/-- Conjunction of all clauses on one row. -/
def rowMatch (clauses : List Clause) (n : NodeRow) : Except HErr Bool :=
  match clauses with
  | [] => .ok true
  | c :: cs => do
      let b ← evalClause c n
      let rest ← rowMatch cs n
      pure (b && rest)

/-- The rows of the store satisfying every clause, in store order. -/
def filterRows (clauses : List Clause) : List NodeRow → Except HErr (List NodeRow)
  | [] => .ok []
  | n :: ns => do
      let b ← rowMatch clauses n
      let rest ← filterRows clauses ns
      pure (if b then n :: rest else rest)

/-- `POST /nodes/search` (`search_nodes`). -/
def search_nodes (body : SearchBody) (db : DB) : Except HErr (List NodeRow) := do
  let rows ← filterRows (compileSearch body) db.nodes
  pure (match body.limit with
        | some m => rows.take m
        | none => rows)

/-! ## Concrete fixtures used by witnesses -/

/-- The `person` schema of the spec's end-to-end scenario: an object with
required string `name` and boolean `active`. -/
def personSchema : JSchema :=
  .schema (some .object) ["name", "active"]
    (.propsOf [("name", .schema (some .string) [] .propsNil),
               ("active", .schema (some .boolean) [] .propsNil)])

/-- Payload `{"name": "Ada", "active": true}`. -/
def adaTrue : Json := Json.objOf [("name", .str "Ada"), ("active", .bool true)]

/-- Payload `{"name": "Ada", "active": false}`. -/
def adaFalse : Json := Json.objOf [("name", .str "Ada"), ("active", .bool false)]

/-- A store with the `person` kind and one node created at instant 5. -/
def dbPerson : DB :=
  { kinds := [⟨"person", personSchema⟩], edgesKinds := [],
    nodes := [⟨1, "person", adaTrue, 5, 5⟩],
    edges := [], attachments := [], files := [] }

/-- A store with the `person` kind and no nodes. -/
def dbPersonEmpty : DB :=
  { kinds := [⟨"person", personSchema⟩], edgesKinds := [],
    nodes := [], edges := [], attachments := [], files := [] }

/-- A store exercising the node-delete cascade: node 1 with an attachment
(bytes present in the byte store) and edges in both directions to node 2. -/
def dbCascade : DB :=
  { kinds := [⟨"person", personSchema⟩], edgesKinds := [⟨"person", "person", "knows"⟩],
    nodes := [⟨1, "person", adaTrue, 5, 5⟩, ⟨2, "person", adaTrue, 6, 6⟩],
    edges := [⟨1, 2, "knows", 7⟩, ⟨2, 1, "knows", 8⟩],
    attachments := [⟨10, 1, "text/plain", "a.txt", "1/10", 9⟩],
    files := ["1/10"] }

/-- Two kinds `a`, `b`, the edge-kind `(a, b, "link")`, nodes X=1 of kind
`a` and Y=2 of kind `b`, and the edge `(1, 2, "link")` already created. -/
def dbEdges : DB :=
  { kinds := [⟨"a", .schema (some .object) [] .propsNil⟩,
              ⟨"b", .schema (some .object) [] .propsNil⟩],
    edgesKinds := [⟨"a", "b", "link"⟩],
    nodes := [⟨1, "a", .objNil, 1, 1⟩, ⟨2, "b", .objNil, 2, 2⟩],
    edges := [⟨1, 2, "link", 3⟩], attachments := [], files := [] }

/-- A store whose single node has the text `"xyz"` at payload key `a`, so a
numeric predicate on `a` makes the search's cast fail. -/
def dbBadCast : DB :=
  { kinds := [⟨"thing", .schema (some .object) [] .propsNil⟩], edgesKinds := [],
    nodes := [⟨1, "thing", Json.objOf [("a", .str "xyz")], 4, 4⟩],
    edges := [], attachments := [], files := [] }

/-- The sort relation of `_validate_payload`: comparison of the string
renderings. -/
instance : IsTotal VError (fun a b => a.render ≤ b.render) :=
  ⟨fun a b => le_total a.render b.render⟩

/-- Transitivity of the render comparison. -/
instance : IsTrans VError (fun a b => a.render ≤ b.render) :=
  ⟨fun _ _ _ h₁ h₂ => le_trans h₁ h₂⟩

/-! ## General lemmas -/

/-! ### Sanity evaluations of the embedded primitives -/

example : extractPathText (Json.objOf [("a", Json.objOf [("b", .str "xFOOy")])]) ["a", "b"]
    = some "xFOOy" := by decide
example : extractPathText (Json.objOf [("a", .null)]) ["a"] = none := by decide
example : extractPathText (Json.objOf [("a", .num 3)]) ["b"] = none := by decide
example : extractPathText (Json.objOf [("xs", Json.arrOf [.num 5, .num 7])]) ["xs", "1"]
    = some "7" := by decide
example : jsonRender (Json.objOf [("a", Json.arrOf [.num 1, .bool true])])
    = "\x7b\"a\": [1, true]\x7d" := by decide
example : sqlIlike "%foo%" "xFOOy" = true := by decide
example : sqlIlike "%foo%" "bar" = false := by decide
example : castNumeric " -12.5 " = some ⟨-125, 1⟩ := by decide
example : castNumeric "xyz" = none := by decide
example : castNumeric "321" = some ⟨321, 0⟩ := by decide
example : (Decimal.eqInt ⟨120, 1⟩ 12) = true := by decide
example : castBool "TRUE" = some true := by decide
example : castBool "false" = some false := by decide
example : castBool "xyz" = none := by decide
example : satisfies (.schema (some .object) ["name"]
    (.propsOf [("name", .schema (some .string) [] .propsNil)]))
    (Json.objOf [("name", .str "Ada")]) = true := by decide
example : validate_payload (.schema (some .object) ["name"] .propsNil) (Json.objOf [])
    = [⟨"name is a required property", [], ["required"]⟩] := by decide

theorem iterErrors_eq_nil_iff (s : JSchema) (j : Json) :
    iterErrors s j = [] ↔ satisfies s j = true := by
  induction s generalizing j with
  | schema t? req props ih =>
      simp only [iterErrors, satisfies, List.append_eq_nil, Bool.and_eq_true]
      constructor
      · rintro ⟨h1, h2⟩
        constructor
        · cases t? with
          | none => rfl
          | some t =>
              by_cases ht : typeMatches t j
              · exact ht
              · simp [ht] at h1
        · by_cases hobj : j.isObj
          · simp only [hobj, if_true, List.append_eq_nil] at h2
            obtain ⟨hreq, hprops⟩ := h2
            simp only [hobj, if_true, Bool.and_eq_true]
            refine ⟨?_, (ih j).mp hprops⟩
            rw [List.all_eq_true]
            intro k hk
            rw [List.filterMap_eq_nil_iff] at hreq
            have h := hreq _ hk
            by_cases hks : (jlookup j k).isSome
            · exact hks
            · simp [hks] at h
          · simp [hobj]
      · rintro ⟨h1, h2⟩
        constructor
        · cases t? with
          | none => rfl
          | some t =>
              have h1' : typeMatches t j = true := h1
              simp [h1']
        · by_cases hobj : j.isObj
          · simp only [hobj, if_true, Bool.and_eq_true] at h2
            obtain ⟨hreq, hprops⟩ := h2
            simp only [hobj, if_true, List.append_eq_nil]
            refine ⟨?_, (ih j).mpr hprops⟩
            rw [List.filterMap_eq_nil_iff]
            intro k hk
            rw [List.all_eq_true] at hreq
            simp [hreq k hk]
          · simp [hobj]
  | propsNil => simp [iterErrors, satisfies]
  | propsCons k sub rest ihsub ihrest =>
      simp only [iterErrors, satisfies, List.append_eq_nil, Bool.and_eq_true]
      constructor
      · rintro ⟨h1, h2⟩
        refine ⟨?_, (ihrest j).mp h2⟩
        cases hlk : jlookup j k with
        | none => rfl
        | some v =>
            simp only [hlk, List.map_eq_nil_iff] at h1
            exact (ihsub v).mp h1
      · rintro ⟨h1, h2⟩
        refine ⟨?_, (ihrest j).mpr h2⟩
        cases hlk : jlookup j k with
        | none => simp
        | some v =>
            simp only [hlk] at h1
            simp only [hlk, List.map_eq_nil_iff]
            exact (ihsub v).mpr h1


/-- A payload that satisfies the schema produces no validation errors. -/
theorem validate_payload_eq_nil_of_satisfies {S : JSchema} {p : Json}
    (h : satisfies S p = true) : validate_payload S p = [] := by
  unfold validate_payload
  rw [(iterErrors_eq_nil_iff S p).mpr h]
  rfl

/-- `find?` skips a leading block on which the predicate fails. -/
theorem find?_append_of_forall_false {α : Type} (p : α → Bool) {l₁ : List α}
    (h : ∀ x ∈ l₁, p x = false) (l₂ : List α) :
    (l₁ ++ l₂).find? p = l₂.find? p := by
  induction l₁ with
  | nil => simp
  | cons a l ih =>
      simp only [List.cons_append, List.find?_cons, h a (List.mem_cons_self a l)]
      exact ih (fun x hx => h x (List.mem_cons_of_mem a hx))

/-! ## C1 — node update and `updated_at`

The claim says a valid update bumps `updated_at` strictly.  The code does
not: `Node.updated_at` has `default=utcnow` but no `onupdate` in
`src/datamodel.py`, and `update_node` assigns only `payload`, so the UPDATE
leaves `updated_at` at its insert-time value (the repository's own test,
`testing.py` line 388, expects it to change).  The theorem evaluates the
model at the spec's own scenario: node created at instant 5, then updated
with `{"name": "Ada", "active": false}`; the update succeeds, replaces the
payload, keeps `kind` and `created_at` — and keeps `updated_at = 5` too. -/

/-- C1: at the failing input, `update_node` succeeds but returns the node
with `updated_at` still equal to its pre-update value 5 (no strict
increase is possible: the operation ignores the instant it runs at). -/
theorem update_node_leaves_updated_at_unchanged :
    update_node dbPerson 1 ⟨adaFalse⟩ =
      .ok ({ dbPerson with nodes := [⟨1, "person", adaFalse, 5, 5⟩] },
           ⟨1, "person", adaFalse, 5, 5⟩) := by
  decide

/-! ## C2 — create then get -/

/-- C2: for a registered kind and a payload satisfying its schema, create
succeeds and an immediate get of the returned id yields the very node, with
the input payload and `created_at = updated_at`.  (`newId` fresh stands for
uuid4 collision-freedom; both timestamp column defaults are evaluated at
the single instant `now` of the insert.) -/
theorem create_node_get_roundtrip (db : DB) (body : NodeCreate) (k : KindRow)
    (newId now : Nat)
    (hkind : getKind? db body.kind = some k)
    (hsat : satisfies k.schema body.payload = true)
    (hfresh : ∀ n ∈ db.nodes, n.id ≠ newId) :
    ∃ db' node,
      create_node db body newId now = .ok (db', node) ∧
      get_node db' newId = .ok node ∧
      node.payload = body.payload ∧
      node.created_at = now ∧ node.updated_at = now ∧
      node.created_at = node.updated_at := by
  have hval := validate_payload_eq_nil_of_satisfies hsat
  have hany : db.nodes.any (fun n => n.id = newId) = false := by
    rw [List.any_eq_false]
    intro x hx
    simpa using hfresh x hx
  refine ⟨{ db with nodes := db.nodes ++ [⟨newId, body.kind, body.payload, now, now⟩] },
    ⟨newId, body.kind, body.payload, now, now⟩, ?_, ?_, rfl, rfl, rfl, rfl⟩
  · simp [create_node, hkind, hval, hany]
  · simp only [get_node, getNode?]
    rw [find?_append_of_forall_false _ (fun x hx => by simpa using hfresh x hx)]
    simp [List.find?]

/-- C2 witness: the `person` scenario at concrete inputs. -/
theorem create_node_get_roundtrip_witness :
    ∃ db' node,
      create_node dbPersonEmpty ⟨"person", adaTrue⟩ 1 7 = .ok (db', node) ∧
      get_node db' 1 = .ok node ∧
      node.payload = adaTrue ∧
      node.created_at = 7 ∧ node.updated_at = 7 ∧
      node.created_at = node.updated_at :=
  create_node_get_roundtrip dbPersonEmpty ⟨"person", adaTrue⟩ ⟨"person", personSchema⟩
    1 7 (by decide) (by decide) (by decide)

/-! ## C5 — kind deletion and referencing nodes -/

/-- C5: deleting an unregistered kind fails NotFound; deleting a kind some
node still has fails InvalidOperation; once no node has the kind, the same
delete succeeds, the kind is gone, and the storage cascade has removed
every edges-kind referencing it at either position. -/
theorem delete_kind_spec :
    (∀ (db : DB) (name : String), getKind? db name = none →
        delete_kind db name = .error (notFound "Kind not found")) ∧
    (∀ (db : DB) (name : String) (k : KindRow) (n : NodeRow),
        getKind? db name = some k → n ∈ db.nodes → n.kind = name →
        delete_kind db name = .error (invalidOp "Cannot delete kind with existing nodes")) ∧
    (∀ (db : DB) (name : String) (k : KindRow),
        getKind? db name = some k → (∀ n ∈ db.nodes, n.kind ≠ name) →
        delete_kind db name =
          .ok { db with
            kinds := db.kinds.filter (fun x => ¬ x.name = name),
            edgesKinds := db.edgesKinds.filter (fun ek =>
              ¬ ek.from_kind = name ∧ ¬ ek.to_kind = name) } ∧
        getKind? { db with
            kinds := db.kinds.filter (fun x => ¬ x.name = name),
            edgesKinds := db.edgesKinds.filter (fun ek =>
              ¬ ek.from_kind = name ∧ ¬ ek.to_kind = name) } name = none ∧
        (∀ ek ∈ db.edgesKinds, ek.from_kind = name ∨ ek.to_kind = name →
          getEdgesKind? { db with
              kinds := db.kinds.filter (fun x => ¬ x.name = name),
              edgesKinds := db.edgesKinds.filter (fun ek =>
                ¬ ek.from_kind = name ∧ ¬ ek.to_kind = name) }
            ek.from_kind ek.to_kind ek.relation = none)) := by
  refine ⟨?_, ?_, ?_⟩
  · intro db name h
    simp only [delete_kind, h]
  · intro db name k n hk hn hkind
    have hmem : n ∈ db.nodes.filter (fun n => n.kind = name) :=
      List.mem_filter.mpr ⟨hn, by simp [hkind]⟩
    have hpos : (db.nodes.filter (fun n => n.kind = name)).length > 0 :=
      List.length_pos.mpr (List.ne_nil_of_mem hmem)
    simp only [delete_kind, hk]
    rw [if_pos hpos]
  · intro db name k hk hnone
    have hnil : db.nodes.filter (fun n => n.kind = name) = [] := by
      rw [List.filter_eq_nil_iff]
      intro n hn
      simpa using hnone n hn
    refine ⟨?_, ?_, ?_⟩
    · simp only [delete_kind, hk, hnil]
      rfl
    · simp only [getKind?, List.find?_eq_none]
      intro x hx
      have := (List.mem_filter.mp hx).2
      simpa using this
    · intro ek hek hend
      simp only [getEdgesKind?, List.find?_eq_none]
      intro x hx
      obtain ⟨hxmem, hxkeepb⟩ := List.mem_filter.mp hx
      have hxkeep := of_decide_eq_true hxkeepb
      simp only [decide_eq_true_eq]
      intro hc
      rcases hend with hid | hid
      · exact hxkeep.1 (by rw [hc.1, hid])
      · exact hxkeep.2 (by rw [hc.2.1, hid])

/-- C5 witness: the three cases at concrete stores; the success case runs on
a store still holding the edges-kind `("a", "b", "link")`, whose cascade
removal the post-state shows. -/
theorem delete_kind_spec_witness :
    delete_kind dbPersonEmpty "ghost" = .error (notFound "Kind not found") ∧
    delete_kind dbPerson "person"
      = .error (invalidOp "Cannot delete kind with existing nodes") ∧
    (delete_kind { dbEdges with nodes := [], edges := [] } "a" =
      .ok { { dbEdges with nodes := [], edges := [] } with
        kinds := { dbEdges with nodes := [], edges := [] }.kinds.filter
          (fun x => ¬ x.name = "a"),
        edgesKinds := { dbEdges with nodes := [], edges := [] }.edgesKinds.filter
          (fun ek => ¬ ek.from_kind = "a" ∧ ¬ ek.to_kind = "a") } ∧
     getKind? { { dbEdges with nodes := [], edges := [] } with
        kinds := { dbEdges with nodes := [], edges := [] }.kinds.filter
          (fun x => ¬ x.name = "a"),
        edgesKinds := { dbEdges with nodes := [], edges := [] }.edgesKinds.filter
          (fun ek => ¬ ek.from_kind = "a" ∧ ¬ ek.to_kind = "a") } "a" = none ∧
     (∀ ek ∈ { dbEdges with nodes := [], edges := [] }.edgesKinds,
        ek.from_kind = "a" ∨ ek.to_kind = "a" →
        getEdgesKind? { { dbEdges with nodes := [], edges := [] } with
            kinds := { dbEdges with nodes := [], edges := [] }.kinds.filter
              (fun x => ¬ x.name = "a"),
            edgesKinds := { dbEdges with nodes := [], edges := [] }.edgesKinds.filter
              (fun ek => ¬ ek.from_kind = "a" ∧ ¬ ek.to_kind = "a") }
          ek.from_kind ek.to_kind ek.relation = none)) :=
  ⟨delete_kind_spec.1 dbPersonEmpty "ghost" (by decide),
   delete_kind_spec.2.1 dbPerson "person" ⟨"person", personSchema⟩
     ⟨1, "person", adaTrue, 5, 5⟩ (by decide) (by decide) rfl,
   delete_kind_spec.2.2 { dbEdges with nodes := [], edges := [] } "a"
     ⟨"a", .schema (some .object) [] .propsNil⟩ (by decide) (by decide)⟩

/-! ## C9 — edge listing and node existence -/

/-- C9: outgoing/incoming listings 404 when the anchor node is absent;
the between-pair query always succeeds, and returns `[]` whenever no edge
joins the pair — node existence is never consulted. -/
theorem edge_listing_spec :
    (∀ (db : DB) (id : Nat), getNode? db id = none →
        outgoing_edges db id = .error (notFound "Node not found") ∧
        incoming_edges db id = .error (notFound "Node not found")) ∧
    (∀ (db : DB) (f t : Nat), ∃ l, edges_between db f t = .ok l) ∧
    (∀ (db : DB) (f t : Nat), (∀ e ∈ db.edges, ¬ (e.from_id = f ∧ e.to_id = t)) →
        edges_between db f t = .ok []) := by
  refine ⟨?_, ?_, ?_⟩
  · intro db id h
    constructor
    · simp only [outgoing_edges, h]
    · simp only [incoming_edges, h]
  · intro db f t
    exact ⟨_, rfl⟩
  · intro db f t h
    simp only [edges_between]
    congr 1
    rw [List.filter_eq_nil_iff]
    intro e he
    simpa using h e he

/-- C9 witness: absent anchor node 42, and the pair (1, 2) with no edges,
including ids of absent nodes. -/
theorem edge_listing_spec_witness :
    (outgoing_edges dbPersonEmpty 42 = .error (notFound "Node not found") ∧
     incoming_edges dbPersonEmpty 42 = .error (notFound "Node not found")) ∧
    (∃ l, edges_between dbPersonEmpty 1 2 = .ok l) ∧
    edges_between dbPersonEmpty 1 2 = .ok [] :=
  ⟨edge_listing_spec.1 dbPersonEmpty 42 (by decide),
   edge_listing_spec.2.1 dbPersonEmpty 1 2,
   edge_listing_spec.2.2 dbPersonEmpty 1 2 (by decide)⟩

/-! ## C4 — edge creation error ladder -/

/-- C4: `create_edge` fails InvalidOperation when an endpoint is missing,
InvalidOperation "not allowed" when no matching edges-kind is registered,
Conflict when the composite key already exists, and otherwise succeeds and
appends the edge. -/
theorem create_edge_spec :
    (∀ (db : DB) (body : EdgeCreate) (now : Nat),
        getNode? db body.from_id = none →
        create_edge db body now = .error (invalidOp "from_id node not found")) ∧
    (∀ (db : DB) (body : EdgeCreate) (now : Nat) (fn : NodeRow),
        getNode? db body.from_id = some fn →
        getNode? db body.to_id = none →
        create_edge db body now = .error (invalidOp "to_id node not found")) ∧
    (∀ (db : DB) (body : EdgeCreate) (now : Nat) (fn tn : NodeRow),
        getNode? db body.from_id = some fn →
        getNode? db body.to_id = some tn →
        getEdgesKind? db fn.kind tn.kind body.relation = none →
        create_edge db body now
          = .error (invalidOp "Edge relationship not allowed by edges-kinds")) ∧
    (∀ (db : DB) (body : EdgeCreate) (now : Nat) (fn tn : NodeRow) (ek : EdgesKindRow)
        (e : EdgeRow),
        getNode? db body.from_id = some fn →
        getNode? db body.to_id = some tn →
        getEdgesKind? db fn.kind tn.kind body.relation = some ek →
        e ∈ db.edges →
        e.from_id = body.from_id → e.to_id = body.to_id → e.relation = body.relation →
        create_edge db body now = .error (conflict "Edge already exists")) ∧
    (∀ (db : DB) (body : EdgeCreate) (now : Nat) (fn tn : NodeRow) (ek : EdgesKindRow),
        getNode? db body.from_id = some fn →
        getNode? db body.to_id = some tn →
        getEdgesKind? db fn.kind tn.kind body.relation = some ek →
        (∀ e ∈ db.edges, ¬ (e.from_id = body.from_id ∧ e.to_id = body.to_id ∧
            e.relation = body.relation)) →
        create_edge db body now =
          .ok ({ db with edges := db.edges ++
              [⟨body.from_id, body.to_id, body.relation, now⟩] },
            ⟨body.from_id, body.to_id, body.relation, now⟩)) := by
  refine ⟨?_, ?_, ?_, ?_, ?_⟩
  · intro db body now h
    simp only [create_edge, h]
  · intro db body now fn h1 h2
    simp only [create_edge, h1, h2]
  · intro db body now fn tn h1 h2 h3
    simp only [create_edge, h1, h2, h3]
  · intro db body now fn tn ek e h1 h2 h3 he hf ht hr
    have hany : db.edges.any (fun e => e.from_id = body.from_id ∧ e.to_id = body.to_id ∧
        e.relation = body.relation) = true := by
      rw [List.any_eq_true]
      exact ⟨e, he, by simp [hf, ht, hr]⟩
    simp only [create_edge, h1, h2, h3, hany]
    simp
  · intro db body now fn tn ek h1 h2 h3 hnone
    have hany : db.edges.any (fun e => e.from_id = body.from_id ∧ e.to_id = body.to_id ∧
        e.relation = body.relation) = false := by
      rw [List.any_eq_false]
      intro e he
      simpa using hnone e he
    simp only [create_edge, h1, h2, h3, hany]
    simp

/-- C4 witness: in `dbEdges` (edge `(1,2,"link")` present): missing
endpoints, the unregistered relation `"other"`, the duplicate `"link"`, and
a successful recreation after deleting the edge. -/
theorem create_edge_spec_witness :
    create_edge dbEdges ⟨99, 2, "link"⟩ 4 = .error (invalidOp "from_id node not found") ∧
    create_edge dbEdges ⟨1, 99, "link"⟩ 4 = .error (invalidOp "to_id node not found") ∧
    create_edge dbEdges ⟨1, 2, "other"⟩ 4
      = .error (invalidOp "Edge relationship not allowed by edges-kinds") ∧
    create_edge dbEdges ⟨1, 2, "link"⟩ 4 = .error (conflict "Edge already exists") ∧
    create_edge { dbEdges with edges := [] } ⟨1, 2, "link"⟩ 4 =
      .ok ({ dbEdges with edges := [] ++ [⟨1, 2, "link", 4⟩] }, ⟨1, 2, "link", 4⟩) :=
  ⟨create_edge_spec.1 dbEdges ⟨99, 2, "link"⟩ 4 (by decide),
   create_edge_spec.2.1 dbEdges ⟨1, 99, "link"⟩ 4 ⟨1, "a", .objNil, 1, 1⟩
     (by decide) (by decide),
   create_edge_spec.2.2.1 dbEdges ⟨1, 2, "other"⟩ 4 ⟨1, "a", .objNil, 1, 1⟩
     ⟨2, "b", .objNil, 2, 2⟩ (by decide) (by decide) (by decide),
   create_edge_spec.2.2.2.1 dbEdges ⟨1, 2, "link"⟩ 4 ⟨1, "a", .objNil, 1, 1⟩
     ⟨2, "b", .objNil, 2, 2⟩ ⟨"a", "b", "link"⟩ ⟨1, 2, "link", 3⟩
     (by decide) (by decide) (by decide) (by decide) rfl rfl rfl,
   create_edge_spec.2.2.2.2 { dbEdges with edges := [] } ⟨1, 2, "link"⟩ 4
     ⟨1, "a", .objNil, 1, 1⟩ ⟨2, "b", .objNil, 2, 2⟩ ⟨"a", "b", "link"⟩
     (by decide) (by decide) (by decide) (by decide)⟩

/-! ## C3 — node deletion cascade -/

/-- C3: deleting an absent node id fails NotFound; deleting an existing node
removes the node, every attachment it owns (and requests removal of the
bytes at their content-location keys, which the model's byte store
honours), and every edge with the node at either endpoint — afterwards a
get on the node, any former owned attachment, or any former incident edge
fails NotFound.  Attachment-id uniqueness is the storage primary key,
hypothesised here. -/
theorem delete_node_cascade_spec
    (db : DB) (id : Nat)
    (hids : (db.attachments.map (fun a => a.id)).Nodup) :
    (getNode? db id = none → delete_node db id = .error (notFound "Node not found")) ∧
    (∀ node, getNode? db id = some node →
      ∃ db', delete_node db id = .ok db' ∧
        get_node db' id = .error (notFound "Node not found") ∧
        (∀ a ∈ db.attachments, a.node_id = id →
          get_attachment db' a.id = .error (notFound "Attachment not found") ∧
          ¬ a.file_path ∈ db'.files) ∧
        (∀ e ∈ db.edges, e.from_id = id ∨ e.to_id = id →
          get_edge db' e.from_id e.to_id e.relation
            = .error (notFound "Edge not found"))) := by
  constructor
  · intro h
    simp only [delete_node, h]
  · intro node hnode
    refine ⟨{ db with
        files := db.files.filter (fun p =>
          ¬ (db.attachments.filter (fun a => a.node_id = id)).any
            (fun a => a.file_path = p)),
        attachments := db.attachments.filter (fun a => ¬ a.node_id = id),
        edges := db.edges.filter (fun e => ¬ e.from_id = id ∧ ¬ e.to_id = id),
        nodes := db.nodes.filter (fun n => ¬ n.id = id) }, ?_, ?_, ?_, ?_⟩
    · simp only [delete_node, hnode]
    · have hfind : (db.nodes.filter (fun n => ¬ n.id = id)).find?
          (fun n => n.id = id) = none := by
        rw [List.find?_eq_none]
        intro n hn
        have hkeep := of_decide_eq_true ((List.mem_filter.mp hn).2)
        simp only [decide_eq_true_eq]
        exact hkeep
      simp only [get_node, getNode?, hfind]
    · intro a ha hown
      constructor
      · simp only [get_attachment, getAttachment?]
        have hnone : (db.attachments.filter (fun x => ¬ x.node_id = id)).find?
            (fun x => x.id = a.id) = none := by
          rw [List.find?_eq_none]
          intro x hx
          obtain ⟨hxmem, hxkeepb⟩ := List.mem_filter.mp hx
          have hxkeep := of_decide_eq_true hxkeepb
          simp only [decide_eq_true_eq]
          intro hxid
          exact hxkeep (by rw [List.inj_on_of_nodup_map hids hxmem ha hxid, hown])
        simp only [hnone]
      · intro hmem
        have hkeep := of_decide_eq_true ((List.mem_filter.mp hmem).2)
        have hany : (db.attachments.filter (fun x => x.node_id = id)).any
            (fun x => x.file_path = a.file_path) = true := by
          rw [List.any_eq_true]
          exact ⟨a, List.mem_filter.mpr ⟨ha, by simp [hown]⟩, by simp⟩
        exact hkeep hany
    · intro e he hend
      simp only [get_edge, getEdge?]
      have hnone : (db.edges.filter (fun x => ¬ x.from_id = id ∧ ¬ x.to_id = id)).find?
          (fun x => x.from_id = e.from_id ∧ x.to_id = e.to_id ∧ x.relation = e.relation)
          = none := by
        rw [List.find?_eq_none]
        intro x hx
        obtain ⟨hxmem, hxkeepb⟩ := List.mem_filter.mp hx
        have hxkeep := of_decide_eq_true hxkeepb
        simp only [decide_eq_true_eq]
        intro hc
        rcases hend with hid | hid
        · exact hxkeep.1 (by rw [hc.1, hid])
        · exact hxkeep.2 (by rw [hc.2.1, hid])
      simp only [hnone]

/-- C3 witness: `dbCascade` (node 1 with an attachment whose bytes are in
the byte store, and edges to and from node 2). -/
theorem delete_node_cascade_spec_witness :
    (getNode? dbCascade 1 = none →
      delete_node dbCascade 1 = .error (notFound "Node not found")) ∧
    (∀ node, getNode? dbCascade 1 = some node →
      ∃ db', delete_node dbCascade 1 = .ok db' ∧
        get_node db' 1 = .error (notFound "Node not found") ∧
        (∀ a ∈ dbCascade.attachments, a.node_id = 1 →
          get_attachment db' a.id = .error (notFound "Attachment not found") ∧
          ¬ a.file_path ∈ db'.files) ∧
        (∀ e ∈ dbCascade.edges, e.from_id = 1 ∨ e.to_id = 1 →
          get_edge db' e.from_id e.to_id e.relation
            = .error (notFound "Edge not found"))) :=
  delete_node_cascade_spec dbCascade 1 (by decide)

/-! ## C8 — validation errors: at least one, deterministically ordered -/

/-- C8: an unsatisfied schema yields a non-empty error list; the list is
sorted by the errors' string rendering (the sort key of
`_validate_payload`), it is a permutation of the validator's raw error
stream, and — the embedding being a function — validating the same pair
twice yields the identical list. -/
theorem validation_error_spec :
    (∀ (S : JSchema) (p : Json), satisfies S p = false → validate_payload S p ≠ []) ∧
    (∀ (S : JSchema) (p : Json),
        (validate_payload S p).Sorted (fun a b => a.render ≤ b.render)) ∧
    (∀ (S : JSchema) (p : Json), (validate_payload S p).Perm (iterErrors S p)) ∧
    (∀ (S : JSchema) (p : Json), validate_payload S p = validate_payload S p) := by
  refine ⟨?_, ?_, ?_, fun S p => rfl⟩
  · intro S p hsat hnil
    have hperm := List.perm_insertionSort
      (fun a b : VError => a.render ≤ b.render) (iterErrors S p)
    rw [validate_payload] at hnil
    rw [hnil] at hperm
    have h0 : iterErrors S p = [] := hperm.symm.eq_nil
    rw [iterErrors_eq_nil_iff] at h0
    rw [h0] at hsat
    exact absurd hsat (by decide)
  · intro S p
    exact List.sorted_insertionSort _ _
  · intro S p
    exact List.perm_insertionSort _ _

/-- C8 witness: the schema requiring `name` against the empty object. -/
theorem validation_error_spec_witness :
    validate_payload (.schema (some .object) ["name"] .propsNil) (Json.objOf []) ≠ [] ∧
    (validate_payload (.schema (some .object) ["name"] .propsNil)
        (Json.objOf [])).Sorted (fun a b => a.render ≤ b.render) ∧
    (validate_payload (.schema (some .object) ["name"] .propsNil) (Json.objOf [])).Perm
      (iterErrors (.schema (some .object) ["name"] .propsNil) (Json.objOf [])) ∧
    validate_payload (.schema (some .object) ["name"] .propsNil) (Json.objOf [])
      = validate_payload (.schema (some .object) ["name"] .propsNil) (Json.objOf []) :=
  ⟨validation_error_spec.1 _ _ (by decide),
   validation_error_spec.2.1 _ _,
   validation_error_spec.2.2.1 _ _,
   validation_error_spec.2.2.2 _ _⟩

/-! ## C10 — boolean/numeric predicates cast before comparing, partially -/

/-- C10: a numeric (resp. boolean) predicate compiles to a cast of the text
at the path followed by comparison; the cast is partial, and on a store
whose node carries non-numeric text at the path the whole search aborts
with the cast error instead of skipping the node. -/
theorem search_cast_partiality :
    (∀ (key : String) (i : Int) (n : NodeRow),
        evalClause (compileEntry key (.num i)) n =
          match extractPathText n.payload (splitPath key) with
          | none => .ok false
          | some t =>
              match castNumeric t with
              | some d => .ok (d.eqInt i)
              | none => .error (serverError "DataError: invalid input syntax for type numeric")) ∧
    (∀ (key : String) (b : Bool) (n : NodeRow),
        evalClause (compileEntry key (.bool b)) n =
          match extractPathText n.payload (splitPath key) with
          | none => .ok false
          | some t =>
              match castBool t with
              | some x => .ok (x = b)
              | none => .error (serverError "DataError: invalid input syntax for type boolean")) ∧
    search_nodes ⟨none, [("a", .num 1)], none⟩ dbBadCast
      = .error (serverError "DataError: invalid input syntax for type numeric") := by
  refine ⟨fun key i n => rfl, fun key b n => rfl, by decide⟩

/-! ## C7 — null predicates and missing paths -/

/-- C7: a `null` predicate matches exactly the rows whose path resolves to
JSON null or is absent; every non-null predicate rejects a row whose
payload lacks the path. -/
theorem search_null_missing_spec :
    (∀ (n : NodeRow) (key : String),
        evalClause (compileEntry key .null) n =
          .ok (decide (extractPath n.payload (splitPath key) = some .null ∨
                       extractPath n.payload (splitPath key) = none))) ∧
    (∀ (n : NodeRow) (key : String) (v : Json), ¬ v = .null →
        extractPath n.payload (splitPath key) = none →
        evalClause (compileEntry key v) n = .ok false) := by
  constructor
  · intro n key
    simp only [compileEntry, evalClause, extractPathText]
    cases h : extractPath n.payload (splitPath key) with
    | none => simp [h]
    | some v => cases v <;> simp [h]
  · intro n key v hv hnone
    have htext : extractPathText n.payload (splitPath key) = none := by
      simp [extractPathText, hnone]
    cases v with
    | null => exact absurd rfl hv
    | str s =>
        simp only [compileEntry]
        by_cases hc : '*' ∈ s.data
        · simp [hc, evalClause, htext]
        · simp [hc, evalClause, htext]
    | bool b => simp [compileEntry, evalClause, htext]
    | num i => simp [compileEntry, evalClause, htext]
    | arrNil => simp [compileEntry, evalClause, htext]
    | arrCons hd tl => simp [compileEntry, evalClause, htext]
    | objNil => simp [compileEntry, evalClause, htext]
    | objCons k v' tl => simp [compileEntry, evalClause, htext]

/-- C7 witness: a row with `{"a": null}` matched by the null predicate on
`a` and missed by it on `b`; a numeric predicate on the missing `b` gives
a plain non-match. -/
theorem search_null_missing_spec_witness :
    evalClause (compileEntry "a" .null) ⟨1, "k", Json.objOf [("a", .null)], 0, 0⟩ =
      .ok (decide (extractPath (Json.objOf [("a", .null)]) (splitPath "a") = some .null ∨
                   extractPath (Json.objOf [("a", .null)]) (splitPath "a") = none)) ∧
    evalClause (compileEntry "b" (.num 2)) ⟨1, "k", Json.objOf [("a", .null)], 0, 0⟩
      = .ok false :=
  ⟨search_null_missing_spec.1 ⟨1, "k", Json.objOf [("a", .null)], 0, 0⟩ "a",
   search_null_missing_spec.2 ⟨1, "k", Json.objOf [("a", .null)], 0, 0⟩ "b" (.num 2)
     (by decide) (by decide)⟩

/-! ## C6 — wildcard string predicates -/

/-- A literal LIKE pattern chunk followed by `%` matches exactly the strings
it is a prefix of. -/
theorem likeMatch_plain_append_percent (lit : List Char)
    (hplain : ∀ c ∈ lit, ¬ c = '%' ∧ ¬ c = '_') :
    ∀ s : List Char, likeMatch (lit ++ ['%']) s = lit.isPrefixOf s := by
  induction lit with
  | nil =>
      intro s
      have h0 : likeMatch ([] ++ ['%']) s = s.tails.any fun t => t.isEmpty := rfl
      rw [h0, List.any_eq_true.mpr ⟨[], (List.mem_tails [] s).mpr List.nil_suffix, rfl⟩]
      cases s <;> rfl
  | cons c cs ih =>
      intro s
      obtain ⟨hcp, hcu⟩ := hplain c (List.mem_cons_self c cs)
      have ihs := ih (fun x hx => hplain x (List.mem_cons_of_mem c hx))
      cases s with
      | nil => simp [likeMatch, if_neg hcp, List.isPrefixOf]
      | cons d s' =>
          have hl : likeMatch ((c :: cs) ++ ['%']) (d :: s')
              = ((decide (c = '_') || decide (c = d)) && likeMatch (cs ++ ['%']) s') := by
            simp only [List.cons_append, likeMatch, if_neg hcp]
            rfl
          have hr : (c :: cs).isPrefixOf (d :: s') = ((c == d) && cs.isPrefixOf s') := rfl
          rw [hl, hr, ihs s']
          by_cases hcd : c = d
          · simp [hcd, hcu]
          · simp [hcd, hcu]

/-- `%lit%` with a wildcard-free literal matches exactly the strings having
the literal as an infix. -/
theorem likeMatch_percent_plain_percent (lit : List Char)
    (hplain : ∀ c ∈ lit, ¬ c = '%' ∧ ¬ c = '_') (s : List Char) :
    likeMatch ('%' :: (lit ++ ['%'])) s = decide (lit <:+: s) := by
  have h0 : likeMatch ('%' :: (lit ++ ['%'])) s
      = s.tails.any fun t => likeMatch (lit ++ ['%']) t := rfl
  rw [h0]
  simp only [likeMatch_plain_append_percent lit hplain]
  by_cases h : lit <:+: s
  · rw [decide_eq_true h, List.any_eq_true]
    obtain ⟨t, hpre, hsuf⟩ := List.infix_iff_prefix_suffix.mp h
    exact ⟨t, (List.mem_tails t s).mpr hsuf, List.isPrefixOf_iff_prefix.mpr hpre⟩
  · rw [decide_eq_false h, List.any_eq_false]
    intro t ht
    intro hpt
    exact h (List.infix_iff_prefix_suffix.mpr
      ⟨t, List.isPrefixOf_iff_prefix.mp hpt, (List.mem_tails t s).mp ht⟩)

/-- When every row's conjunction evaluates without error, filtering the
store is an ordinary list filter. -/
theorem filterRows_eq_filter (clauses : List Clause) (g : NodeRow → Bool)
    (h : ∀ n, rowMatch clauses n = .ok (g n)) :
    ∀ rows, filterRows clauses rows = .ok (rows.filter g) := by
  intro rows
  induction rows with
  | nil => rfl
  | cons n ns ih =>
      simp only [filterRows, h n, ih, List.filter_cons]
      by_cases hg : g n
      · simp [hg, Except.bind, Bind.bind, pure, Except.pure]
      · simp [hg, Except.bind, Bind.bind, pure, Except.pure]

/-- A single error-free clause is the row predicate itself. -/
theorem rowMatch_single (c : Clause) (n : NodeRow) (b : Bool)
    (h : evalClause c n = .ok b) : rowMatch [c] n = .ok b := by
  simp [rowMatch, h, Except.bind, Bind.bind, pure, Except.pure]

/-- C6: the predicate `{"a.b": "*foo*"}` compiles to a case-insensitive
multi-character-wildcard match, so the search returns exactly the rows
whose text at `a.b` contains `foo` in any letter case; and the compiled
clause depends on nothing but the text extracted at that path. -/
theorem search_wildcard_spec :
    (∀ db : DB, search_nodes ⟨none, [("a.b", .str "*foo*")], none⟩ db =
      .ok (db.nodes.filter (fun n =>
        match extractPathText n.payload ["a", "b"] with
        | some t => decide ("foo".toList <:+: lcList t.toList)
        | none => false))) ∧
    (∀ n m : NodeRow,
        extractPathText n.payload ["a", "b"] = extractPathText m.payload ["a", "b"] →
        evalClause (compileEntry "a.b" (.str "*foo*")) n
          = evalClause (compileEntry "a.b" (.str "*foo*")) m) := by
  have hplain : ∀ c ∈ "foo".toList, ¬ c = '%' ∧ ¬ c = '_' := by decide
  have hlc : lcList "%foo%".toList = '%' :: ("foo".toList ++ ['%']) := by decide
  have hilike : ∀ t : String, sqlIlike "%foo%" t
      = decide ("foo".toList <:+: lcList t.toList) := by
    intro t
    rw [sqlIlike, hlc]
    exact likeMatch_percent_plain_percent _ hplain _
  have hentry : compileEntry "a.b" (.str "*foo*")
      = .ilikeText ["a", "b"] "%foo%" := by decide
  have heval : ∀ n : NodeRow, evalClause (compileEntry "a.b" (.str "*foo*")) n =
      .ok (match extractPathText n.payload ["a", "b"] with
           | some t => decide ("foo".toList <:+: lcList t.toList)
           | none => false) := by
    intro n
    rw [hentry]
    simp only [evalClause]
    cases hx : extractPathText n.payload ["a", "b"] with
    | none => rfl
    | some t => simp only [hilike t]
  constructor
  · intro db
    have hcs : compileSearch ⟨none, [("a.b", .str "*foo*")], none⟩
        = [.ilikeText ["a", "b"] "%foo%"] := by decide
    have hrow : ∀ n : NodeRow, rowMatch [Clause.ilikeText ["a", "b"] "%foo%"] n =
        .ok (match extractPathText n.payload ["a", "b"] with
             | some t => decide ("foo".toList <:+: lcList t.toList)
             | none => false) :=
      fun n => rowMatch_single _ _ _ (by rw [← hentry]; exact heval n)
    simp only [search_nodes, hcs]
    rw [filterRows_eq_filter _ _ hrow db.nodes]
    rfl
  · intro n m h
    rw [heval n, heval m, h]

/-- C6 witness: the search over a two-node store keeps exactly the node with
`xFOOy` at `a.b` (case-insensitive hit) and drops the one with `bar`
despite its other fields being identical; the clause agrees on two rows
with equal text at the path. -/
theorem search_wildcard_spec_witness :
    search_nodes ⟨none, [("a.b", .str "*foo*")], none⟩
      { kinds := [⟨"k", .schema none [] .propsNil⟩], edgesKinds := [],
        nodes := [⟨1, "k", Json.objOf [("a", Json.objOf [("b", .str "xFOOy")]), ("c", .num 1)], 0, 0⟩,
                  ⟨2, "k", Json.objOf [("a", Json.objOf [("b", .str "bar")]), ("c", .num 1)], 0, 0⟩],
        edges := [], attachments := [], files := [] } =
      .ok ([⟨1, "k", Json.objOf [("a", Json.objOf [("b", .str "xFOOy")]), ("c", .num 1)], 0, 0⟩,
            ⟨2, "k", Json.objOf [("a", Json.objOf [("b", .str "bar")]), ("c", .num 1)], 0, 0⟩].filter
        (fun n =>
          match extractPathText n.payload ["a", "b"] with
          | some t => decide ("foo".toList <:+: lcList t.toList)
          | none => false)) ∧
    evalClause (compileEntry "a.b" (.str "*foo*"))
        ⟨1, "k", Json.objOf [("a", Json.objOf [("b", .str "xFOOy")]), ("c", .num 1)], 0, 0⟩
      = evalClause (compileEntry "a.b" (.str "*foo*"))
        ⟨3, "k", Json.objOf [("a", Json.objOf [("b", .str "xFOOy")])], 9, 9⟩ :=
  ⟨search_wildcard_spec.1 _,
   search_wildcard_spec.2 _ _ (by decide)⟩
